import Mathlib

/- Verification of the reconciliation engine of the recept repository
   (app/services/bank_transaction_service.py).

   Modelling conventions, used throughout:
   - Python floats holding currency values and scores are modelled as exact
     rationals.
   - Python datetimes are modelled as whole-day indices of type Int; the
     strftime Y-m-d rendering used in grouping keys is modelled by the
     decimal rendering of the day index, which is injective on days exactly
     as the Y-m-d rendering is, and the timedelta day difference is the
     difference of the indices.
   - Nullable columns are Option types.  Python truthiness of a value (None
     and the empty string are both falsy, datetimes are always truthy) is
     modelled explicitly at each use site.
   - External AI calls are modelled as oracle function parameters; a none
     result stands for any failure of the remote call, every one of which
     the source catches. -/

attribute [local semireducible] Rat.add Rat.mul Rat.sub Rat.inv Rat.ofScientific

namespace Recept

/-! Utilities shared by several components.  All string manipulation is done
on the underlying character lists, with Char.toLower / Char.toUpper /
Char.isWhitespace modelling the Python casing and whitespace tests (the
inputs of interest are ASCII, where the two languages agree). -/

/-- Split a character list at every character satisfying p, keeping empty
pieces. -/
def splitOnPred (p : Char → Bool) : List Char → List (List Char)
  | [] => [[]]
  | c :: cs =>
    let r := splitOnPred p cs
    if p c then [] :: r
    else
      match r with
      | h :: t => (c :: h) :: t
      | [] => [[c]]

/-- Python str.split with no arguments: split on whitespace and drop the
empty pieces. -/
def pySplit (s : String) : List String :=
  ((splitOnPred (fun c => c.isWhitespace) s.data).filter (fun t => t ≠ [])).map String.mk

/-- Python str.lower. -/
def strLower (s : String) : String :=
  ⟨s.data.map Char.toLower⟩

/-- Python str.upper. -/
def strUpper (s : String) : String :=
  ⟨s.data.map Char.toUpper⟩

/-- Drop whitespace from both ends of a character list. -/
def trimChars (cs : List Char) : List Char :=
  ((cs.dropWhile Char.isWhitespace).reverse.dropWhile Char.isWhitespace).reverse

/-- Python str.strip with no arguments. -/
def strTrim (s : String) : String :=
  ⟨trimChars s.data⟩

/-- Python str.startswith. -/
def strStarts (s pre : String) : Bool :=
  pre.data.isPrefixOf s.data

/-- Python slicing s[n:]. -/
def strDrop (s : String) (n : Nat) : String :=
  ⟨s.data.drop n⟩

/-- Python slicing s[:n]. -/
def strTake (s : String) (n : Nat) : String :=
  ⟨s.data.take n⟩

/-- Python str.join on a list of strings. -/
def strJoin (sep : String) : List String → String
  | [] => ""
  | [s] => s
  | s :: rest => s ++ sep ++ strJoin sep rest

/-- Length of a string in characters, Python len. -/
def strLen (s : String) : Nat :=
  s.data.length

/-- Auxiliary loop for dedupFirst, carrying the already seen elements. -/
def dedupLoop {α : Type} [DecidableEq α] (seen : List α) : List α → List α
  | [] => []
  | x :: xs => if x ∈ seen then dedupLoop seen xs else x :: dedupLoop (x :: seen) xs

/-- Deduplication keeping the first occurrence of each element, in order.
Models iteration over a Python set built from a list; the iteration order of
a Python set is unspecified, this model fixes first-occurrence order. -/
def dedupFirst {α : Type} [DecidableEq α] (l : List α) : List α :=
  dedupLoop [] l

/-- Substring test on character lists, models the Python `in` operator on
strings. -/
def containsList (hay needle : List Char) : Bool :=
  if needle.isPrefixOf hay then true
  else
    match hay with
    | [] => false
    | _ :: t => containsList t needle

/-- Substring test on strings. -/
def strContains (hay needle : String) : Bool :=
  containsList hay.toList needle.toList

/-! The data model: Lean images of the two SQLAlchemy row types
(app/models/transaction.py and app/models/bank_transaction.py) restricted to
the columns the reconciliation engine reads, plus the TransactionMatch value
object (app/schemas/bank_transaction.py). -/

/-- Ledger transaction row (model Transaction), fields read by the engine. -/
structure Transaction where
  id : Nat
  user_id : Nat
  merchant_name : Option String
  amount : Option ℚ
  transaction_date : Option Int
  category : Option String
  description : Option String
deriving DecidableEq

/-- Bank transaction row (model BankTransaction). -/
structure BankTransaction where
  id : Nat
  user_id : Nat
  upload_batch_id : Option String
  date : Option Int
  description : Option String
  amount : Option ℚ
  balance : Option ℚ
  transaction_type : Option String
  reference_number : Option String
  category : Option String
  merchant_name : Option String
  is_matched : Bool
  matched_transaction_id : Option Nat
  match_confidence : Option ℚ
  match_type : Option String
deriving DecidableEq

/-- Match value object (schema TransactionMatch). -/
structure TransactionMatch where
  ledger_transaction : Option Transaction
  bank_transaction : Option BankTransaction
  match_type : String
  confidence : ℚ
deriving DecidableEq

/-! The baseline matcher: _calculate_string_similarity,
_calculate_match_confidence and _match_transactions
(bank_transaction_service.py lines 970-1081). -/

/-- Word-overlap Jaccard similarity, _calculate_string_similarity.  The
source guards twice: empty input strings, then empty word sets; the final
guard (empty union) is unreachable and rational division by zero is zero
anyway. -/
def calculate_string_similarity (str1 str2 : String) : ℚ :=
  if str1 = "" ∨ str2 = "" then 0
  else
    let words1 := dedupFirst (pySplit str1)
    let words2 := dedupFirst (pySplit str2)
    if words1 = [] ∨ words2 = [] then 0
    else
      let inter := words1.filter (fun w => w ∈ words2)
      let union := words1 ++ words2.filter (fun w => w ∉ words1)
      (inter.length : ℚ) / (union.length : ℚ)

/-- Amount summand of _calculate_match_confidence: both amounts present
(the source tests is-not-None explicitly), 0.4 within 0.01, 0.2 within 0.1. -/
def amount_confidence (ledger_tx : Transaction) (bank_tx : BankTransaction) : ℚ :=
  match ledger_tx.amount, bank_tx.amount with
  | some a, some b =>
    if |a - b| < 1/100 then 4/10
    else if |a - b| < 1/10 then 2/10
    else 0
  | _, _ => 0

/-- Date summand: both dates present (datetimes are always truthy, so the
truthiness guard of the source is presence), 0.3 same day, 0.2 within one
day, 0.1 within three days. -/
def date_confidence (ledger_tx : Transaction) (bank_tx : BankTransaction) : ℚ :=
  match ledger_tx.transaction_date, bank_tx.date with
  | some d1, some d2 =>
    let date_diff := (d1 - d2).natAbs
    if date_diff = 0 then 3/10
    else if date_diff ≤ 1 then 2/10
    else if date_diff ≤ 3 then 1/10
    else 0
  | _, _ => 0

/-- Description summand: both descriptions truthy, word-overlap similarity
of the lowered strings weighted 0.2. -/
def desc_confidence (ledger_tx : Transaction) (bank_tx : BankTransaction) : ℚ :=
  match ledger_tx.description, bank_tx.description with
  | some s1, some s2 =>
    if s1 ≠ "" ∧ s2 ≠ "" then
      calculate_string_similarity (strLower s1) (strLower s2) * (2/10)
    else 0
  | _, _ => 0

/-- Category summand: both categories truthy and equal case-insensitively,
0.1. -/
def category_confidence (ledger_tx : Transaction) (bank_tx : BankTransaction) : ℚ :=
  match ledger_tx.category, bank_tx.category with
  | some c1, some c2 =>
    if c1 ≠ "" ∧ c2 ≠ "" ∧ strLower c1 = strLower c2 then 1/10 else 0
  | _, _ => 0

/-- Multi-factor confidence score, _calculate_match_confidence: the running
sum of the four summands, capped at 1. -/
def calculate_match_confidence (ledger_tx : Transaction) (bank_tx : BankTransaction) : ℚ :=
  min (amount_confidence ledger_tx bank_tx + date_confidence ledger_tx bank_tx +
    desc_confidence ledger_tx bank_tx + category_confidence ledger_tx bank_tx) 1

/-- Inner loop of both matchers: scan the bank transactions, skip the ones
whose id is already claimed, and keep the best candidate whose score is
strictly above both the current best and the threshold.  The accumulator
pair mirrors the best_match / best_confidence variables, started at
(None, 0). -/
def select_best (score : BankTransaction → ℚ) (threshold : ℚ) (matched_bank_ids : List Nat) :
    List BankTransaction → Option BankTransaction → ℚ → Option BankTransaction × ℚ
  | [], best, conf => (best, conf)
  | bank_tx :: rest, best, conf =>
    if bank_tx.id ∈ matched_bank_ids then
      select_best score threshold matched_bank_ids rest best conf
    else if conf < score bank_tx ∧ threshold < score bank_tx then
      select_best score threshold matched_bank_ids rest (some bank_tx) (score bank_tx)
    else
      select_best score threshold matched_bank_ids rest best conf

/-- Outer loop shared by _match_transactions and
_ai_enhanced_match_transactions, which differ only in the score function and
threshold.  Returns the matched list, the ledger_only list, and the final
matched_bank_ids set (as a list, membership being all that is used). -/
def match_engine (score : Transaction → BankTransaction → ℚ) (threshold : ℚ) :
    List Transaction → List BankTransaction → List Nat →
    List TransactionMatch × List TransactionMatch × List Nat
  | [], _, used => ([], [], used)
  | ledger_tx :: rest, bank_transactions, used =>
    match select_best (score ledger_tx) threshold used bank_transactions none 0 with
    | (some best_match, best_confidence) =>
      let r := match_engine score threshold rest bank_transactions (best_match.id :: used)
      (⟨some ledger_tx, some best_match, "matched", best_confidence⟩ :: r.1, r.2.1, r.2.2)
    | (none, _) =>
      let r := match_engine score threshold rest bank_transactions used
      (r.1, ⟨some ledger_tx, none, "ledger_only", 0⟩ :: r.2.1, r.2.2)

/-- Baseline matcher _match_transactions: threshold 0.7, heuristic score.
Returns (matched, ledger_only, bank_only). -/
def match_transactions (ledger_transactions : List Transaction)
    (bank_transactions : List BankTransaction) :
    List TransactionMatch × List TransactionMatch × List TransactionMatch :=
  let r := match_engine calculate_match_confidence (7/10) ledger_transactions bank_transactions []
  let bank_only := (bank_transactions.filter (fun bank_tx => bank_tx.id ∉ r.2.2)).map
    (fun bank_tx => ⟨none, some bank_tx, "bank_only", 0⟩)
  (r.1, r.2.1, bank_only)

/-- External match-verification call, _ai_verify_match.  The oracle returns
the parsed number of a successful call; any failure (remote error or an
unparseable response) is none and yields the neutral 0.5.  A parsed value is
clamped into the unit interval. -/
def ai_verify_match (oracle : Transaction → BankTransaction → Option ℚ)
    (ledger_tx : Transaction) (bank_tx : BankTransaction) : ℚ :=
  match oracle ledger_tx bank_tx with
  | some confidence => max 0 (min 1 confidence)
  | none => 1/2

/-- Blended confidence of the enhanced matcher, _ai_calculate_match_confidence. -/
def ai_calculate_match_confidence (oracle : Transaction → BankTransaction → Option ℚ)
    (ledger_tx : Transaction) (bank_tx : BankTransaction) : ℚ :=
  let basic_confidence := calculate_match_confidence ledger_tx bank_tx
  if basic_confidence > 1/2 then
    basic_confidence * (6/10) + ai_verify_match oracle ledger_tx bank_tx * (4/10)
  else basic_confidence

/-- Enhanced matcher _ai_enhanced_match_transactions: threshold lowered to
0.6, blended score. -/
def ai_enhanced_match_transactions (oracle : Transaction → BankTransaction → Option ℚ)
    (ledger_transactions : List Transaction) (bank_transactions : List BankTransaction) :
    List TransactionMatch × List TransactionMatch × List TransactionMatch :=
  let r := match_engine (ai_calculate_match_confidence oracle) (6/10)
    ledger_transactions bank_transactions []
  let bank_only := (bank_transactions.filter (fun bank_tx => bank_tx.id ∉ r.2.2)).map
    (fun bank_tx => ⟨none, some bank_tx, "bank_only", 0⟩)
  (r.1, r.2.1, bank_only)

/-! The duplicate grouper and merger: detect_and_merge_duplicates,
_group_potential_duplicates, _clean_description_for_grouping,
_analyze_duplicates_with_ai, _fallback_duplicate_analysis and
_merge_duplicate_transactions (bank_transaction_service.py lines
1083-1367). -/

/-- Python float formatting with two decimal places, as used for the amount
component of the grouping key.  Rounds half away from zero; the source
rounds the binary double half to even, which differs only at exact
half-cent values, which no claim touches. -/
def fmt2 (q : ℚ) : String :=
  let a : ℚ := |q|
  let scaled : ℚ := a * 100 + 1/2
  let cents : Nat := (scaled.num.tdiv (scaled.den : Int)).toNat
  let whole := cents / 100
  let frac := cents % 100
  let fracStr := if frac < 10 then "0" ++ toString frac else toString frac
  (if q < 0 then "-" else "") ++ toString whole ++ "." ++ fracStr

/-- An uppercase ASCII letter, the regex class [A-Z]. -/
def isUpperAZ (c : Char) : Bool :=
  'A' ≤ c && c ≤ 'Z'

/-- Whether the whole character list matches the trailing-state-code regex
piece, one or more whitespace then exactly two uppercase letters then
optional whitespace then optional digits.  Each quantified piece is forced
to consume a maximal run because the following piece cannot match its
characters, so the backtracking search of the regex engine is equivalent to
this deterministic scan. -/
def matchStateCode (cs : List Char) : Bool :=
  let rest := cs.dropWhile Char.isWhitespace
  !(cs.takeWhile Char.isWhitespace).isEmpty &&
    match rest with
    | a :: b :: rest2 =>
      isUpperAZ a && isUpperAZ b && (rest2.dropWhile Char.isWhitespace).all Char.isDigit
    | _ => false

/-- Whether the whole character list matches the trailing-long-number regex
piece, one or more whitespace then four or more digits reaching the end. -/
def matchTrailDigits (cs : List Char) : Bool :=
  let rest := cs.dropWhile Char.isWhitespace
  !(cs.takeWhile Char.isWhitespace).isEmpty && decide (4 ≤ rest.length) && rest.all Char.isDigit

/-- Python re.sub of an end-anchored pattern with the empty replacement:
delete from the leftmost position whose suffix matches the pattern.  The
patterns used here begin with mandatory whitespace and so never match the
empty suffix. -/
def subTrailing (m : List Char → Bool) : List Char → List Char
  | [] => []
  | c :: cs => if m (c :: cs) then [] else c :: subTrailing m cs

/-- Description cleaner of the grouping key, _clean_description_for_grouping:
uppercase and strip, peel leading transaction-code words in table order, then
delete a trailing state-code run and a trailing long digit run. -/
def clean_description_for_grouping (description : String) : String :=
  if description = "" then ""
  else
    let cleaned := strTrim (strUpper description)
    let cleaned := ["POS", "VISA", "MC", "DEBIT", "CREDIT", "ATM", "CHECK"].foldl
      (fun acc p => if strStarts acc p then strTrim (strDrop acc (strLen p)) else acc) cleaned
    let cs := subTrailing matchStateCode cleaned.data
    let cs := subTrailing matchTrailDigits cs
    strTrim ⟨cs⟩

/-- Grouping key of _group_potential_duplicates: amount to two decimals
(None and the falsy 0.0 print as the default "0.00"), day (None prints as
"unknown"), and the first 50 characters of the cleaned description, joined
with underscores. -/
def group_key (tx : BankTransaction) : String :=
  let amount_key :=
    match tx.amount with
    | some q => if q ≠ 0 then fmt2 q else "0.00"
    | none => "0.00"
  let date_key :=
    match tx.date with
    | some d => toString d
    | none => "unknown"
  amount_key ++ "_" ++ date_key ++ "_" ++ strTake (clean_description_for_grouping (tx.description.getD "")) 50

/-- Keys of the grouping dictionary in first-insertion order, as iterated by
the merging loop. -/
def group_keys (transactions : List BankTransaction) : List String :=
  dedupFirst (transactions.map group_key)

/-- Members of one group, in row order. -/
def group_members (k : String) (transactions : List BankTransaction) : List BankTransaction :=
  transactions.filter (fun t => group_key t = k)

/-- Keys of the groups that survive the size filter of
_group_potential_duplicates, the duplicate candidates. -/
def duplicate_group_keys (transactions : List BankTransaction) : List String :=
  (group_keys transactions).filter (fun k => 1 < (group_members k transactions).length)

/-- Result of a duplicate analysis.  The reasoning and recommended_action
strings of the source are omitted, nothing reads them. -/
structure DuplicateAnalysis where
  are_duplicates : Bool
  confidence : ℚ
deriving DecidableEq

/-- Deterministic fallback analysis, _fallback_duplicate_analysis: only
pairs are analysed; an exact field match confirms at 1.0, otherwise amounts
within 0.01 (with both truthy, so nonzero), equal dates and word-overlap
similarity above 0.8 confirm at 0.9. -/
def fallback_duplicate_analysis (transactions : List BankTransaction) : DuplicateAnalysis :=
  match transactions with
  | [tx1, tx2] =>
    if tx1.amount = tx2.amount ∧ tx1.date = tx2.date ∧ tx1.description = tx2.description then
      ⟨true, 1⟩
    else
      let amount_match : Bool :=
        match tx1.amount, tx2.amount with
        | some a1, some a2 => a1 != 0 && a2 != 0 && decide (|a1 - a2| < 1/100)
        | _, _ => false
      let desc_similarity :=
        calculate_string_similarity (tx1.description.getD "") (tx2.description.getD "")
      if amount_match ∧ tx1.date = tx2.date ∧ desc_similarity > 8/10 then ⟨true, 9/10⟩
      else ⟨false, 0⟩
  | _ => ⟨false, 0⟩

/-- Duplicate confirmation, _analyze_duplicates_with_ai: groups smaller than
two are rejected outright; otherwise the external call decides, and any of
its failures falls back to the deterministic analysis. -/
def analyze_duplicates_with_ai (oracle : List BankTransaction → Option DuplicateAnalysis)
    (transactions : List BankTransaction) : DuplicateAnalysis :=
  if transactions.length < 2 then ⟨false, 0⟩
  else
    match oracle transactions with
    | some analysis => analysis
    | none => fallback_duplicate_analysis transactions

/-- Merge of one confirmed group, _merge_duplicate_transactions.  The first
member is the base for the scalar fields.  The merged_data dictionary of the
source carries no description key: a description is only set when the
members carry more than one distinct non-empty description, as the join of
their deduplicated set; otherwise the created row has a null description.
Category and merchant name take the first non-null non-placeholder value
across members, else the base value.  The empty group makes the source
raise, modelled by none.  The id of the created row is assigned by the
database and never read by this pass; the model uses 0. -/
def merge_duplicate_transactions (transactions : List BankTransaction) : Option BankTransaction :=
  match transactions with
  | [] => none
  | base_tx :: _ =>
    let descriptions := (transactions.filterMap (fun t => t.description)).filter (fun d => d ≠ "")
    let categories :=
      (transactions.filterMap (fun t => t.category)).filter (fun c => c ≠ "" ∧ c ≠ "N/A")
    let merchant_names :=
      (transactions.filterMap (fun t => t.merchant_name)).filter (fun m => m ≠ "" ∧ m ≠ "Unknown")
    some {
      id := 0
      user_id := base_tx.user_id
      upload_batch_id := base_tx.upload_batch_id
      date := base_tx.date
      description :=
        if 1 < (dedupFirst descriptions).length then
          some (strJoin " | " (dedupFirst descriptions))
        else none
      amount := base_tx.amount
      balance := base_tx.balance
      transaction_type := base_tx.transaction_type
      reference_number := base_tx.reference_number
      category := match categories with | c :: _ => some c | [] => base_tx.category
      merchant_name := match merchant_names with | m :: _ => some m | [] => base_tx.merchant_name
      is_matched := base_tx.is_matched
      matched_transaction_id := base_tx.matched_transaction_id
      match_confidence := base_tx.match_confidence
      match_type := base_tx.match_type }

/-- The duplicate pass, detect_and_merge_duplicates, over the in-memory
image of the stored rows: group, confirm each multi-member group, and for
every confirmed group delete its members and insert one merged row.
Returns the resulting stored rows (survivors in row order, then the
inserted merged rows in group order) and the transactions_deleted counter,
which adds group size minus one per confirmed group. -/
def detect_and_merge_duplicates (oracle : List BankTransaction → Option DuplicateAnalysis)
    (transactions : List BankTransaction) : List BankTransaction × Nat :=
  let confirmed := (duplicate_group_keys transactions).filter
    (fun k => (analyze_duplicates_with_ai oracle (group_members k transactions)).are_duplicates)
  let remaining := transactions.filter (fun t => group_key t ∉ confirmed)
  let merged := confirmed.filterMap (fun k => merge_duplicate_transactions (group_members k transactions))
  (remaining ++ merged, (confirmed.map (fun k => (group_members k transactions).length - 1)).sum)

/-! The ingestion pipeline: process_csv_upload, _parse_csv_traditional,
_normalize_csv_row, _is_header_row, _clean_transaction_data_improved and the
field parsers (bank_transaction_service.py lines 100-743). -/

/-- Python str.endswith. -/
def strEnds (s suf : String) : Bool :=
  suf.data.isSuffixOf s.data

/-- Python str.join over character lists. -/
def joinChars (sep : List Char) : List (List Char) → List Char
  | [] => []
  | [p] => p
  | p :: rest => p ++ sep ++ joinChars sep rest

/-- Numeric value of a digit list. -/
def natFromDigits (cs : List Char) : Nat :=
  cs.foldl (fun acc c => acc * 10 + (c.toNat - '0'.toNat)) 0

/-- Model of Decimal(s) followed by float(): an optional leading minus, then
digits with at most one decimal point and at least one digit somewhere.
Anything else makes the Decimal constructor raise, modelled by none.  The
conversion to float is modelled by the exact value. -/
def parseDecimalChars (cs : List Char) : Option ℚ :=
  let signed := match cs with
    | '-' :: rest => (true, rest)
    | rest => (false, rest)
  let sign : ℚ := if signed.1 then -1 else 1
  match splitOnPred (fun c => c = '.') signed.2 with
  | [intPart] =>
    if intPart ≠ [] ∧ intPart.all Char.isDigit then
      some (sign * (natFromDigits intPart : ℚ))
    else none
  | [intPart, fracPart] =>
    if (intPart ≠ [] ∨ fracPart ≠ []) ∧ intPart.all Char.isDigit ∧ fracPart.all Char.isDigit then
      some (sign * ((natFromDigits intPart : ℚ) + mkRat (natFromDigits fracPart) (10 ^ fracPart.length)))
    else none
  | _ => none

/-- Amount parser, _parse_amount_improved: strip, delete currency symbols
and commas, turn a parenthesised value into a leading minus, delete every
remaining character that is not a digit, a dot or a minus, and when more
than one dot remains run the broken collapse step of the source, which
rejoins the dot-separated parts with dots and therefore returns its input
unchanged; finally parse as a decimal.  Every failure is caught and becomes
none. -/
def parse_amount_improved (amount_str : String) : Option ℚ :=
  if amount_str = "" then none
  else
    let cleaned := strTrim amount_str
    let cs := cleaned.data.filter (fun c => c ∉ ['$', '€', '£', '¥', '₹'])
    let cs := cs.filter (fun c => c ≠ ',')
    let cs :=
      if '(' ∈ cs ∧ ')' ∈ cs then
        (cs.map (fun c => if c = '(' then '-' else c)).filter (fun c => c ≠ ')')
      else cs
    let cs := cs.filter (fun c => c.isDigit || c = '.' || c = '-')
    let cs :=
      if 1 < cs.count '.' then
        let parts := splitOnPred (fun c => c = '.') cs
        joinChars ['.'] parts.dropLast ++ ['.'] ++ (parts.getLast?.getD [])
      else cs
    parseDecimalChars cs

/-- Field extraction helper, _extract_field_value: the first of the given
keys that is present with a truthy value yields that value, stripped. -/
def extract_field_value (data : List (String × String)) : List String → Option String
  | [] => none
  | field_name :: rest =>
    match data.lookup field_name with
    | some v => if v = "" then extract_field_value data rest else some (strTrim v)
    | none => extract_field_value data rest

/-- Auxiliary loop collapsing whitespace runs into single spaces, carrying
whether the previous character was whitespace. -/
def collapseWsAux : Bool → List Char → List Char
  | _, [] => []
  | prev, c :: cs =>
    if c.isWhitespace then
      if prev then collapseWsAux true cs else ' ' :: collapseWsAux true cs
    else c :: collapseWsAux false cs

/-- Python re.sub of one-or-more whitespace with a single space. -/
def collapseWs (cs : List Char) : List Char :=
  collapseWsAux false cs

/-- Description cleaner, _clean_description: strip, collapse whitespace,
peel leading transaction-code words (compared on the uppercased string, cut
from the original), cap at 500 characters. -/
def clean_description (description : String) : String :=
  if description = "" then ""
  else
    let cleaned := String.mk (collapseWs (trimChars description.data))
    let cleaned := ["POS ", "VISA ", "MC ", "DEBIT ", "CREDIT ", "ATM ", "CHECK "].foldl
      (fun acc p => if strStarts (strUpper acc) p then strTrim (strDrop acc (strLen p)) else acc)
      cleaned
    strTake cleaned 500

/-- Reference-number cleaner, _clean_reference_number: keep word characters
and dashes, cap at 100. -/
def clean_reference_number (ref : String) : String :=
  if ref = "" then ""
  else strTake ⟨ref.data.filter (fun c => c.isAlphanum || c = '_' || c = '-')⟩ 100

/-- Keyword sets of _normalize_transaction_type_improved, in source order. -/
def debit_indicators : List String :=
  ["debit", "deduction", "withdrawal", "out", "-", "dr", "debit card",
   "purchase", "payment", "charge", "withdraw", "debit transaction"]

/-- Credit keyword set, in source order. -/
def credit_indicators : List String :=
  ["credit", "deposit", "addition", "in", "+", "cr", "credit card",
   "refund", "deposit", "credit transaction", "credit adjustment"]

/-- Transaction-type normalizer, _normalize_transaction_type_improved:
lower-case and strip, test substring membership against the two keyword
sets, else infer from the sign of the amount. -/
def normalize_transaction_type_improved (type_str : String) (amount : ℚ) : String :=
  if type_str = "" then (if 0 ≤ amount then "credit" else "debit")
  else
    let type_lower := strTrim (strLower type_str)
    if debit_indicators.any (fun ind => strContains type_lower ind) then "debit"
    else if credit_indicators.any (fun ind => strContains type_lower ind) then "credit"
    else if 0 ≤ amount then "credit" else "debit"

/-- Category keyword table of _auto_categorize_improved, in source order;
the first category with a substring hit wins. -/
def category_keywords : List (String × List String) :=
  [("food", ["restaurant", "cafe", "food", "grocery", "market", "dining", "starbucks",
     "mcdonald", "pizza", "burger", "subway", "kfc", "wendy", "taco", "chipotle",
     "domino", "papa john", "pizza hut", "dunkin", "coffee", "bakery", "deli"]),
   ("gas", ["gas", "fuel", "shell", "exxon", "chevron", "bp", "mobil", "sunoco",
     "marathon", "speedway", "circle k", "7-eleven", "gas station", "fuel station"]),
   ("shopping", ["amazon", "walmart", "target", "store", "shop", "retail", "purchase",
     "best buy", "home depot", "lowes", "costco", "sam club", "ikea", "macy",
     "nordstrom", "kohl", "ross", "marshalls", "tj maxx", "online", "ecommerce"]),
   ("travel", ["hotel", "airline", "flight", "uber", "lyft", "taxi", "parking", "toll",
     "marriott", "hilton", "hyatt", "airbnb", "expedia", "booking", "orbitz",
     "southwest", "delta", "american airline", "united", "airport", "car rental"]),
   ("entertainment", ["movie", "theater", "netflix", "spotify", "game", "entertainment",
     "hulu", "disney", "hbo", "youtube", "apple tv", "amazon prime", "xbox",
     "playstation", "nintendo", "concert", "show", "ticket", "event"]),
   ("healthcare", ["pharmacy", "doctor", "medical", "hospital", "health", "cvs", "walgreens",
     "rite aid", "kroger pharmacy", "walmart pharmacy", "clinic", "dental",
     "vision", "optical", "prescription", "medicine", "healthcare"]),
   ("utilities", ["electric", "water", "gas bill", "internet", "phone", "utility",
     "power", "electricity", "water bill", "gas company", "internet service",
     "cable", "satellite", "at&t", "verizon", "comcast", "spectrum"]),
   ("transportation", ["uber", "lyft", "taxi", "parking", "toll", "bus", "train", "subway",
     "metro", "transit", "transportation", "car", "auto", "vehicle"]),
   ("insurance", ["insurance", "geico", "state farm", "allstate", "progressive", "farmers",
     "liberty mutual", "nationwide", "auto insurance", "home insurance",
     "health insurance", "life insurance"]),
   ("banking", ["bank", "atm", "check", "deposit", "withdrawal", "transfer",
     "chase", "bank of america", "wells fargo", "citibank", "us bank"])]

/-- Categorizer, _auto_categorize_improved. -/
def auto_categorize_improved (description : String) : String :=
  if description = "" then "other"
  else
    let desc_lower := strLower description
    match category_keywords.find? (fun ck => ck.2.any (fun kw => strContains desc_lower kw)) with
    | some ck => ck.1
    | none => "other"

/-- Whether the whole character list matches the trailing-reference regex
piece, one or more whitespace then a hash sign then one or more digits
reaching the end. -/
def matchRefNum (cs : List Char) : Bool :=
  let rest := cs.dropWhile Char.isWhitespace
  !(cs.takeWhile Char.isWhitespace).isEmpty &&
    match rest with
    | '#' :: ds => !ds.isEmpty && ds.all Char.isDigit
    | _ => false

/-- Merchant-name extractor, _extract_merchant_name_improved. -/
def extract_merchant_name_improved (description : String) : String :=
  if description = "" then ""
  else
    let lines := splitOnPred (fun c => c = '\n') description.data
    let first_line := trimChars (lines.headD [])
    let merchant_name :=
      if first_line.length ≤ 100 ∧
          first_line.all (fun c =>
            c.isAlphanum || c = '_' || c.isWhitespace || c = '-' || c = '.' || c = '&') then
        String.mk first_line
      else description
    let cleaned := strUpper merchant_name
    let cleaned := ["POS ", "VISA ", "MC ", "DEBIT ", "CREDIT ", "ATM ", "CHECK ",
        "PURCHASE ", "PAYMENT ", "TRANSACTION ", "CARD ", "ONLINE "].foldl
      (fun acc p => if strStarts acc p then strTrim (strDrop acc (strLen p)) else acc) cleaned
    let cs := subTrailing matchStateCode cleaned.data
    let cs := subTrailing matchTrailDigits cs
    let cs := subTrailing matchRefNum cs
    let cleaned := [" INC", " LLC", " CORP", " CORPORATION", " COMPANY", " CO",
        " STORE", " SHOP", " MARKET", " SUPERMARKET", " GROCERY"].foldl
      (fun acc suf =>
        if strEnds acc suf then strTrim (strTake acc (strLen acc - strLen suf)) else acc)
      (String.mk cs)
    strTake (strTrim cleaned) 255

/-- One accepted row of the ingestion pipeline, the cleaned dictionary that
_clean_transaction_data_improved produces for BankTransactionCreate.  A
parseable date and amount are mandatory; the remaining fields are
opportunistic. -/
structure CleanedRow where
  date : Int
  amount : ℚ
  description : Option String
  balance : Option ℚ
  transaction_type : String
  reference_number : Option String
  category : Option String
  merchant_name : Option String
deriving DecidableEq

/-- Row cleaner, _clean_transaction_data_improved.  The date parser
_parse_date_improved (an ordered strptime pattern list with a regex retry)
is passed as a parameter: no claim depends on which date strings it accepts,
only on whether it accepts, and threading it keeps the reject-on-unparseable
structure of the source exact. -/
def clean_transaction_data_improved (parse_date : String → Option Int)
    (transaction_data : List (String × String)) : Option CleanedRow :=
  match extract_field_value transaction_data ["date", "transaction_date", "posted_date"] with
  | none => none
  | some date_value =>
    match parse_date date_value with
    | none => none
    | some date =>
      match extract_field_value transaction_data
          ["amount", "transaction_amount", "debit", "credit"] with
      | none => none
      | some amount_value =>
        match parse_amount_improved amount_value with
        | none => none
        | some amount =>
          let description := (extract_field_value transaction_data
            ["description", "memo", "merchant", "payee"]).map clean_description
          let balance := (extract_field_value transaction_data
            ["balance", "running_balance", "account_balance"]).bind parse_amount_improved
          let transaction_type :=
            match extract_field_value transaction_data
                ["transaction_type", "type", "debit_credit"] with
            | some type_value => normalize_transaction_type_improved type_value amount
            | none => if 0 ≤ amount then "credit" else "debit"
          let reference_number := (extract_field_value transaction_data
            ["reference_number", "reference", "ref_number", "check_number"]).map
            clean_reference_number
          let category_from_desc : Option String :=
            match description with
            | some d => if d ≠ "" then some (auto_categorize_improved d) else none
            | none => none
          let category :=
            match extract_field_value transaction_data
                ["category", "categories", "transaction_category"] with
            | some category_value =>
              if strLower category_value ∈ ["n/a", "unknown", ""] then category_from_desc
              else some (strLower category_value)
            | none => category_from_desc
          let merchant_name :=
            match description with
            | some d => if d ≠ "" then some (extract_merchant_name_improved d) else none
            | none => none
          some { date, amount, description, balance, transaction_type,
                 reference_number, category, merchant_name }

/-- Model of csv.Sniffer().sniff on a content sample, restricted to what the
engine relies on: one of the preferred delimiters, in preference order, that
occurs in the sample; a sample in which none occurs (in particular the empty
sample of an empty upload) makes the sniffer raise, modelled by none. -/
def sniff_delimiter (sample : String) : Option Char :=
  [',', '\t', ';', ' ', ':'].find? (fun d => d ∈ sample.data)

/-- Key normalization inside _normalize_csv_row: lower-case and strip,
replace every character that is not a word character or whitespace by a
space, replace whitespace runs by single underscores, strip underscores. -/
def normalize_key (key : String) : String :=
  let k := strTrim (strLower key)
  let k := k.data.map (fun c => if c.isAlphanum || c = '_' || c.isWhitespace then c else ' ')
  let k := (collapseWs k).map (fun c => if c = ' ' then '_' else c)
  ⟨((k.dropWhile (fun c => c = '_')).reverse.dropWhile (fun c => c = '_')).reverse⟩

/-- Column-synonym table of _normalize_csv_row, in source order. -/
def field_mappings : List (String × List String) :=
  [("date", ["date", "transaction_date", "posted_date", "trans_date", "posting_date",
     "transaction date", "posting date", "date posted", "effective date"]),
   ("description", ["description", "memo", "merchant", "payee", "details",
     "transaction description", "merchant name", "payee name", "transaction details",
     "memo/description", "merchant/description", "merchant_description"]),
   ("amount", ["amount", "transaction_amount", "debit", "credit", "transaction amount",
     "debit amount", "credit amount", "withdrawal", "deposit"]),
   ("balance", ["balance", "running_balance", "account_balance", "running balance",
     "account balance", "ending balance", "new balance"]),
   ("transaction_type", ["type", "transaction_type", "debit_credit", "transaction type",
     "debit/credit", "dc", "dr_cr"]),
   ("reference_number", ["reference", "ref_number", "check_number", "transaction_id",
     "reference number", "check number", "transaction id", "ref", "check", "id"]),
   ("category", ["category", "categories", "transaction_category", "transaction categories"])]

/-- Dictionary write with Python semantics on an association list: an
existing key is overwritten in place, a new key is appended. -/
def assocSet (data : List (String × String)) (key value : String) : List (String × String) :=
  if (data.lookup key).isSome then
    data.map (fun kv => if kv.1 = key then (kv.1, value) else kv)
  else data ++ [(key, value)]

/-- Row normalizer, _normalize_csv_row: skip falsy keys and values, map each
normalized column name to the first canonical field one of whose synonyms is
a substring of it, keep unrecognized columns under their normalized name. -/
def normalize_csv_row (row : List (String × String)) : List (String × String) :=
  row.foldl (fun acc kv =>
    if kv.1 = "" ∨ kv.2 = "" then acc
    else
      let normalized_key := normalize_key kv.1
      let mapped_field :=
        match field_mappings.find? (fun fm => fm.2.any (fun var => strContains normalized_key var)) with
        | some fm => fm.1
        | none => normalized_key
      assocSet acc mapped_field (strTrim kv.2)) []

/-- Header keyword list of _is_header_row. -/
def header_indicators : List String :=
  ["date", "description", "amount", "balance", "type", "reference",
   "transaction", "debit", "credit", "memo", "merchant"]

/-- Header-row detector, _is_header_row: join the truthy values, lowered,
with spaces, and flag the row when at least two header keywords occur in the
joined text. -/
def is_header_row (row : List (String × String)) : Bool :=
  let row_values := strJoin " " (((row.map (fun kv => kv.2)).filter (fun v => v ≠ "")).map strLower)
  decide (2 ≤ (header_indicators.filter (fun ind => strContains row_values ind)).length)

/-- Traditional parser, _parse_csv_traditional: sniff the delimiter on a
1024-character sample (any sniffing failure is caught and yields the empty
list), then read the remaining lines against the header line, normalize each
row, and drop empty and header-like rows.  Quoted fields and carriage
returns are not modelled; no claim exercises them. -/
def parse_csv_traditional (csv_text : String) : List (List (String × String)) :=
  match sniff_delimiter (strTake csv_text 1024) with
  | none => []
  | some delimiter =>
    match (splitOnPred (fun c => c = '\n') csv_text.data).filter (fun l => l ≠ []) with
    | [] => []
    | header :: dataLines =>
      let headerFields := (splitOnPred (fun c => c = delimiter) header).map String.mk
      let rows := dataLines.map (fun line =>
        headerFields.zip ((splitOnPred (fun c => c = delimiter) line).map String.mk))
      (rows.map normalize_csv_row).filter
        (fun nrow => nrow.any (fun kv => kv.2 ≠ "") && !is_header_row nrow)

/-- Structured ingestion response, schema CSVUploadResponse. -/
structure CSVUploadResponse where
  batch_id : String
  total_transactions : Nat
  successful_imports : Nat
  failed_imports : Nat
  errors : List String
deriving DecidableEq

/-- Ingestion call, process_csv_upload.  The upload bytes are modelled by
their decoded text (a 0-byte upload decodes to the empty string without
error).  The openai_rows oracle models _parse_csv_with_openai, which catches
every failure internally and returns the empty list for it, as the source
does; a falsy result triggers the traditional parser.  The batch identifier
generated by uuid4 is a parameter.  Row persistence always succeeds in the
model, so the per-row error branch is the invalid-data message of the
source; the outer exception branch of the source is unreachable here
because both parsers catch their own failures. -/
def process_csv_upload (openai_rows : String → List (List (String × String)))
    (parse_date : String → Option Int) (batch_id : String) (csv_text : String) :
    CSVUploadResponse :=
  let ai_data := openai_rows csv_text
  let transactions_data := if ai_data.isEmpty then parse_csv_traditional csv_text else ai_data
  let step := transactions_data.enum.foldl (fun acc ir =>
      match clean_transaction_data_improved parse_date ir.2 with
      | some _ => (acc.1 + 1, acc.2.1, acc.2.2)
      | none => (acc.1, acc.2.1 + 1,
          acc.2.2 ++ ["Row " ++ toString (ir.1 + 1) ++ ": Invalid transaction data"]))
    ((0 : Nat), (0 : Nat), ([] : List String))
  { batch_id := batch_id
    total_transactions := transactions_data.length
    successful_imports := step.1
    failed_imports := step.2.1
    errors := step.2.2.take 10 }

/-! Helper lemmas about the matcher inner loop. -/

/-- Bank ids carried by a list of matches, in list order. -/
def matchedBankIds (ms : List TransactionMatch) : List Nat :=
  ms.filterMap (fun m => m.bank_transaction.map (fun t => t.id))

theorem select_best_go (score : BankTransaction → ℚ) (threshold : ℚ) (used : List Nat)
    (banks : List BankTransaction) :
    ∀ (b0 : BankTransaction) (c0 : ℚ) (b : BankTransaction) (c : ℚ),
      threshold < c0 →
      select_best score threshold used banks (some b0) c0 = (some b, c) →
      c0 ≤ c ∧ (∀ t ∈ banks, t.id ∉ used → score t ≤ c) ∧
        ((b = b0 ∧ c = c0) ∨
          (c0 < c ∧ banks.find? (fun t => decide (t.id ∉ used ∧ score t = c)) = some b)) := by
  induction banks with
  | nil =>
    intro b0 c0 b c hθ h
    simp only [select_best, Prod.mk.injEq, Option.some.injEq] at h
    exact ⟨le_of_eq h.2, by simp, Or.inl ⟨h.1.symm, h.2.symm⟩⟩
  | cons bt rest ih =>
    intro b0 c0 b c hθ h
    by_cases hmem : bt.id ∈ used
    · rw [select_best, if_pos hmem] at h
      obtain ⟨h1, h2, h3⟩ := ih b0 c0 b c hθ h
      refine ⟨h1, ?_, ?_⟩
      · intro t ht hid
        rcases List.mem_cons.mp ht with rfl | ht'
        · exact absurd hmem hid
        · exact h2 t ht' hid
      · rcases h3 with h3 | ⟨hlt, hfind⟩
        · exact Or.inl h3
        · refine Or.inr ⟨hlt, ?_⟩
          rw [List.find?_cons_of_neg, hfind]
          simp [hmem]
    · by_cases hupd : c0 < score bt ∧ threshold < score bt
      · rw [select_best, if_neg hmem, if_pos hupd] at h
        obtain ⟨h1, h2, h3⟩ := ih bt (score bt) b c hupd.2 h
        refine ⟨le_trans (le_of_lt hupd.1) h1, ?_, ?_⟩
        · intro t ht hid
          rcases List.mem_cons.mp ht with rfl | ht'
          · exact h1
          · exact h2 t ht' hid
        · rcases h3 with ⟨hb, hc⟩ | ⟨hlt, hfind⟩
          · refine Or.inr ⟨hc ▸ hupd.1, ?_⟩
            rw [List.find?_cons_of_pos, hb]
            simp [hmem, hc]
          · refine Or.inr ⟨lt_trans hupd.1 hlt, ?_⟩
            rw [List.find?_cons_of_neg, hfind]
            simp only [decide_eq_true_eq, not_and]
            intro _
            exact ne_of_lt hlt
      · rw [select_best, if_neg hmem, if_neg hupd] at h
        obtain ⟨h1, h2, h3⟩ := ih b0 c0 b c hθ h
        have hbt : score bt ≤ c0 := by
          rcases not_and_or.mp hupd with h' | h'
          · exact le_of_not_lt h'
          · exact le_trans (le_of_not_lt h') (le_of_lt hθ)
        refine ⟨h1, ?_, ?_⟩
        · intro t ht hid
          rcases List.mem_cons.mp ht with rfl | ht'
          · exact le_trans hbt h1
          · exact h2 t ht' hid
        · rcases h3 with h3 | ⟨hlt, hfind⟩
          · exact Or.inl h3
          · refine Or.inr ⟨hlt, ?_⟩
            rw [List.find?_cons_of_neg, hfind]
            simp only [decide_eq_true_eq, not_and]
            intro _
            exact ne_of_lt (lt_of_le_of_lt hbt hlt)

theorem select_best_none (score : BankTransaction → ℚ) (threshold : ℚ) (used : List Nat)
    (banks : List BankTransaction) :
    ∀ (b : BankTransaction) (c : ℚ),
      select_best score threshold used banks none 0 = (some b, c) →
      threshold < c ∧ 0 < c ∧ c = score b ∧ b.id ∉ used ∧ b ∈ banks ∧
      (∀ t ∈ banks, t.id ∉ used → score t ≤ c) ∧
      banks.find? (fun t => decide (t.id ∉ used ∧ score t = c)) = some b := by
  induction banks with
  | nil =>
    intro b c h
    simp [select_best] at h
  | cons bt rest ih =>
    intro b c h
    by_cases hmem : bt.id ∈ used
    · rw [select_best, if_pos hmem] at h
      obtain ⟨hθ, h0, hsc, hnu, hmemb, hbound, hfind⟩ := ih b c h
      refine ⟨hθ, h0, hsc, hnu, List.mem_cons_of_mem _ hmemb, ?_, ?_⟩
      · intro t ht hid
        rcases List.mem_cons.mp ht with rfl | ht'
        · exact absurd hmem hid
        · exact hbound t ht' hid
      · rw [List.find?_cons_of_neg, hfind]
        simp [hmem]
    · by_cases hupd : (0 : ℚ) < score bt ∧ threshold < score bt
      · rw [select_best, if_neg hmem, if_pos hupd] at h
        obtain ⟨h1, h2, h3⟩ := select_best_go score threshold used rest bt (score bt) b c hupd.2 h
        rcases h3 with ⟨hb, hc⟩ | ⟨hlt, hfind⟩
        · subst hb
          refine ⟨hc ▸ hupd.2, hc ▸ hupd.1, hc, hmem, List.mem_cons_self _ _, ?_, ?_⟩
          · intro t ht hid
            rcases List.mem_cons.mp ht with rfl | ht'
            · exact le_of_eq hc.symm
            · exact h2 t ht' hid
          · rw [List.find?_cons_of_pos]
            simp [hmem, hc]
        · have hpb := List.find?_some hfind
          simp only [decide_eq_true_eq] at hpb
          refine ⟨lt_trans hupd.2 hlt, lt_trans hupd.1 hlt, hpb.2.symm, hpb.1,
            List.mem_cons_of_mem _ (List.mem_of_find?_eq_some hfind), ?_, ?_⟩
          · intro t ht hid
            rcases List.mem_cons.mp ht with rfl | ht'
            · exact le_of_lt hlt
            · exact h2 t ht' hid
          · rw [List.find?_cons_of_neg, hfind]
            simp only [decide_eq_true_eq, not_and]
            intro _
            exact ne_of_lt hlt
      · rw [select_best, if_neg hmem, if_neg hupd] at h
        obtain ⟨hθ, h0, hsc, hnu, hmemb, hbound, hfind⟩ := ih b c h
        have hbt : score bt < c := by
          rcases not_and_or.mp hupd with h' | h'
          · exact lt_of_le_of_lt (le_of_not_lt h') h0
          · exact lt_of_le_of_lt (le_of_not_lt h') hθ
        refine ⟨hθ, h0, hsc, hnu, List.mem_cons_of_mem _ hmemb, ?_, ?_⟩
        · intro t ht hid
          rcases List.mem_cons.mp ht with rfl | ht'
          · exact le_of_lt hbt
          · exact hbound t ht' hid
        · rw [List.find?_cons_of_neg, hfind]
          simp only [decide_eq_true_eq, not_and]
          intro _
          exact ne_of_lt hbt

theorem matchedBankIds_nil : matchedBankIds [] = [] := rfl

theorem matchedBankIds_cons_some (lt : Option Transaction) (bt : BankTransaction)
    (mt : String) (c : ℚ) (ms : List TransactionMatch) :
    matchedBankIds (⟨lt, some bt, mt, c⟩ :: ms) = bt.id :: matchedBankIds ms := by
  simp [matchedBankIds]

theorem matchedBankIds_cons_none (lt : Option Transaction) (mt : String) (c : ℚ)
    (ms : List TransactionMatch) :
    matchedBankIds (⟨lt, none, mt, c⟩ :: ms) = matchedBankIds ms := by
  simp [matchedBankIds]

theorem match_engine_invariant (score : Transaction → BankTransaction → ℚ) (threshold : ℚ)
    (ledger : List Transaction) :
    ∀ (banks : List BankTransaction) (used : List Nat),
      (matchedBankIds (match_engine score threshold ledger banks used).1).Nodup ∧
      (∀ i ∈ matchedBankIds (match_engine score threshold ledger banks used).1, i ∉ used) ∧
      (∀ i, i ∈ (match_engine score threshold ledger banks used).2.2 ↔
        i ∈ matchedBankIds (match_engine score threshold ledger banks used).1 ∨ i ∈ used) ∧
      (matchedBankIds (match_engine score threshold ledger banks used).1).length
        = (match_engine score threshold ledger banks used).1.length ∧
      (∀ i ∈ matchedBankIds (match_engine score threshold ledger banks used).1,
        i ∈ banks.map (fun t => t.id)) ∧
      (match_engine score threshold ledger banks used).1.length
        + (match_engine score threshold ledger banks used).2.1.length = ledger.length := by
  induction ledger with
  | nil =>
    intro banks used
    simp [match_engine, matchedBankIds]
  | cons lt rest ih =>
    intro banks used
    rcases hsb : select_best (score lt) threshold used banks none 0 with ⟨ob, c⟩
    cases ob with
    | some bt =>
      have hA := select_best_none (score lt) threshold used banks bt c hsb
      obtain ⟨ih1, ih2, ih3, ih4, ih5, ih6⟩ := ih banks (bt.id :: used)
      simp only [match_engine, hsb, matchedBankIds_cons_some]
      refine ⟨?_, ?_, ?_, ?_, ?_, ?_⟩
      · refine List.nodup_cons.mpr ⟨fun hin => ?_, ih1⟩
        exact (ih2 bt.id hin) (List.mem_cons_self _ _)
      · intro i hi
        rcases List.mem_cons.mp hi with rfl | hi'
        · exact hA.2.2.2.1
        · exact fun hu => (ih2 i hi') (List.mem_cons_of_mem _ hu)
      · intro i
        rw [ih3 i]
        simp only [List.mem_cons]
        tauto
      · simp only [List.length_cons, ih4]
      · intro i hi
        rcases List.mem_cons.mp hi with rfl | hi'
        · exact List.mem_map_of_mem _ hA.2.2.2.2.1
        · exact ih5 i hi'
      · simp only [List.length_cons]
        omega
    | none =>
      obtain ⟨ih1, ih2, ih3, ih4, ih5, ih6⟩ := ih banks used
      simp only [match_engine, hsb, matchedBankIds_cons_none]
      refine ⟨ih1, ih2, ih3, ih4, ih5, ?_⟩
      simp only [List.length_cons]
      omega

theorem length_filter_not_mem (L : List BankTransaction) :
    ∀ (S : List Nat), (L.map (fun t => t.id)).Nodup → S.Nodup →
      (∀ s ∈ S, s ∈ L.map (fun t => t.id)) →
      (L.filter (fun t => decide (t.id ∉ S))).length + S.length = L.length := by
  induction L with
  | nil =>
    intro S _ _ hsub
    have hS : S = [] := List.eq_nil_iff_forall_not_mem.mpr (fun s hs => by simpa using hsub s hs)
    simp [hS]
  | cons a L ih =>
    intro S hL hS hsub
    rw [List.map_cons, List.nodup_cons] at hL
    obtain ⟨haL, hL'⟩ := hL
    by_cases haS : a.id ∈ S
    · have hcongr : L.filter (fun t => decide (t.id ∉ S))
          = L.filter (fun t => decide (t.id ∉ S.erase a.id)) := by
        apply List.filter_congr
        intro t ht
        have hne : t.id ≠ a.id := fun he => haL (he ▸ List.mem_map_of_mem _ ht)
        simp [List.mem_erase_of_ne hne]
      have hsub' : ∀ s ∈ S.erase a.id, s ∈ L.map (fun t => t.id) := by
        intro s hs
        have hsS := List.mem_of_mem_erase hs
        have hsne : s ≠ a.id := ((List.Nodup.mem_erase_iff hS).mp hs).1
        have hmem := hsub s hsS
        rw [List.map_cons] at hmem
        rcases List.mem_cons.mp hmem with h | h
        · exact absurd h hsne
        · exact h
      have hlen : (S.erase a.id).length = S.length - 1 := List.length_erase_of_mem haS
      have hpos : 0 < S.length := List.length_pos.mpr (fun he => by simp [he] at haS)
      have hrec := ih (S.erase a.id) hL' (hS.erase _) hsub'
      have hstep : List.filter (fun t => decide (t.id ∉ S)) (a :: L)
          = List.filter (fun t => decide (t.id ∉ S)) L := by
        rw [List.filter_cons]
        simp [haS]
      rw [hstep, hcongr, List.length_cons]
      omega
    · have hsub' : ∀ s ∈ S, s ∈ L.map (fun t => t.id) := by
        intro s hs
        have hmem := hsub s hs
        rw [List.map_cons] at hmem
        rcases List.mem_cons.mp hmem with h | h
        · exact absurd (h ▸ hs) haS
        · exact h
      have hrec := ih S hL' hS hsub'
      have hstep : List.filter (fun t => decide (t.id ∉ S)) (a :: L)
          = a :: List.filter (fun t => decide (t.id ∉ S)) L := by
        rw [List.filter_cons]
        simp [haS]
      rw [hstep, List.length_cons, List.length_cons]
      omega

/-- C1: In the baseline matcher, once a bank record has been assigned in a
match, no ledger record processed later in the outer loop is ever assigned
that same bank record, whatever its score: the bank ids carried by the
matched list, which is produced in ledger-processing order, are pairwise
distinct. -/
theorem greedy_claim_bank_ids_nodup (ledger_transactions : List Transaction)
    (bank_transactions : List BankTransaction) :
    (matchedBankIds (match_transactions ledger_transactions bank_transactions).1).Nodup := by
  have h := match_engine_invariant calculate_match_confidence (7/10) ledger_transactions
    bank_transactions []
  simpa [match_transactions] using h.1

/-- C2: the three–way partition of the baseline matcher is complete: the
matched and ledger_only lists together count every ledger record, and the
matched and bank_only lists together count every bank record.  The bank
records carry pairwise distinct row ids, their database primary keys. -/
theorem partition_complete (ledger_transactions : List Transaction)
    (bank_transactions : List BankTransaction)
    (hids : (bank_transactions.map (fun t => t.id)).Nodup) :
    (match_transactions ledger_transactions bank_transactions).1.length
        + (match_transactions ledger_transactions bank_transactions).2.1.length
      = ledger_transactions.length ∧
    (match_transactions ledger_transactions bank_transactions).1.length
        + (match_transactions ledger_transactions bank_transactions).2.2.length
      = bank_transactions.length := by
  obtain ⟨h1, h2, h3, h4, h5, h6⟩ := match_engine_invariant calculate_match_confidence (7/10)
    ledger_transactions bank_transactions []
  constructor
  · simpa [match_transactions] using h6
  · have hcongr :
        (bank_transactions.filter (fun bank_tx => decide (bank_tx.id ∉
          (match_engine calculate_match_confidence (7/10) ledger_transactions
            bank_transactions []).2.2)))
        = bank_transactions.filter (fun bank_tx => decide (bank_tx.id ∉
            matchedBankIds (match_engine calculate_match_confidence (7/10) ledger_transactions
              bank_transactions []).1)) := by
      apply List.filter_congr
      intro t _
      have := h3 t.id
      simp only [List.not_mem_nil, or_false] at this
      simp [this]
    have hcount := length_filter_not_mem bank_transactions
      (matchedBankIds (match_engine calculate_match_confidence (7/10) ledger_transactions
        bank_transactions []).1) hids h1 h5
    simp only [match_transactions, List.length_map, hcongr]
    omega

/-- C2 witness at a one-element ledger and a one-element bank list. -/
theorem partition_complete_witness :
    (match_transactions
        [⟨10, 1, none, some 5, some 7, none, some "SAFEWAY"⟩]
        [⟨5, 1, none, some 7, some "SAFEWAY", some 5, none, none, none, none, none,
          false, none, none, none⟩]).1.length
      + (match_transactions
        [⟨10, 1, none, some 5, some 7, none, some "SAFEWAY"⟩]
        [⟨5, 1, none, some 7, some "SAFEWAY", some 5, none, none, none, none, none,
          false, none, none, none⟩]).2.1.length = 1 ∧
    (match_transactions
        [⟨10, 1, none, some 5, some 7, none, some "SAFEWAY"⟩]
        [⟨5, 1, none, some 7, some "SAFEWAY", some 5, none, none, none, none, none,
          false, none, none, none⟩]).1.length
      + (match_transactions
        [⟨10, 1, none, some 5, some 7, none, some "SAFEWAY"⟩]
        [⟨5, 1, none, some 7, some "SAFEWAY", some 5, none, none, none, none, none,
          false, none, none, none⟩]).2.2.length = 1 :=
  partition_complete _ _ (by decide)

/-- C10: tie-breaking of the greedy matchers.  select_best is the inner loop
both of the baseline matcher and of the enhanced matcher (match_engine
instantiates it with their score functions and thresholds).  Whenever it
selects a candidate, that candidate is an available bank record whose score
exceeds the threshold, no available bank record scores higher, and it is the
first available bank record of the input order attaining that score: a later
candidate with an equal score never displaces the current best, so the
matcher output is the same function of the input lists and their order on
every run. -/
theorem greedy_tie_break (score : BankTransaction → ℚ) (threshold : ℚ)
    (matched_bank_ids : List Nat) (banks : List BankTransaction)
    (b : BankTransaction) (c : ℚ)
    (h : select_best score threshold matched_bank_ids banks none 0 = (some b, c)) :
    c = score b ∧ threshold < c ∧ b.id ∉ matched_bank_ids ∧ b ∈ banks ∧
    (∀ t ∈ banks, t.id ∉ matched_bank_ids → score t ≤ c) ∧
    banks.find? (fun t => decide (t.id ∉ matched_bank_ids ∧ score t = c)) = some b := by
  obtain ⟨h1, _, h3, h4, h5, h6, h7⟩ :=
    select_best_none score threshold matched_bank_ids banks b c h
  exact ⟨h3, h1, h4, h5, h6, h7⟩

/-- C10 witness: two available bank records with equal scores, the first is
kept. -/
theorem greedy_tie_break_witness :
    ((9:ℚ)/10 = (fun _ : BankTransaction => (9:ℚ)/10)
        ⟨1, 1, none, none, none, none, none, none, none, none, none, false, none, none, none⟩) ∧
    ((7:ℚ)/10 < 9/10) ∧
    (BankTransaction.id ⟨1, 1, none, none, none, none, none, none, none, none, none,
        false, none, none, none⟩ ∉ ([] : List Nat)) ∧
    ((⟨1, 1, none, none, none, none, none, none, none, none, none, false, none, none, none⟩ :
        BankTransaction) ∈
      [(⟨1, 1, none, none, none, none, none, none, none, none, none, false, none, none, none⟩ :
          BankTransaction),
        ⟨2, 1, none, none, none, none, none, none, none, none, none, false, none, none, none⟩]) ∧
    (∀ t ∈ [(⟨1, 1, none, none, none, none, none, none, none, none, none, false, none, none,
          none⟩ : BankTransaction),
        ⟨2, 1, none, none, none, none, none, none, none, none, none, false, none, none, none⟩],
      t.id ∉ ([] : List Nat) → (fun _ : BankTransaction => (9:ℚ)/10) t ≤ 9/10) ∧
    ([(⟨1, 1, none, none, none, none, none, none, none, none, none, false, none, none, none⟩ :
          BankTransaction),
        ⟨2, 1, none, none, none, none, none, none, none, none, none, false, none, none,
          none⟩].find?
        (fun t => decide (t.id ∉ ([] : List Nat) ∧ (fun _ : BankTransaction => (9:ℚ)/10) t = 9/10))
      = some ⟨1, 1, none, none, none, none, none, none, none, none, none, false, none, none,
          none⟩) :=
  greedy_tie_break (fun _ => 9/10) (7/10) [] _ _ _ (by decide)

/-! Bounds of the score components, for the confidence invariant. -/

theorem similarity_nonneg_le_one (str1 str2 : String) :
    0 ≤ calculate_string_similarity str1 str2 ∧ calculate_string_similarity str1 str2 ≤ 1 := by
  unfold calculate_string_similarity
  dsimp only
  split_ifs with h1 h2
  · norm_num
  · norm_num
  · have hw1 : dedupFirst (pySplit str1) ≠ [] := fun he => h2 (Or.inl he)
    have hlen1 : 0 < (dedupFirst (pySplit str1)).length := List.length_pos.mpr hw1
    constructor
    · exact div_nonneg (Nat.cast_nonneg _) (Nat.cast_nonneg _)
    · rw [div_le_one]
      · have hle : ((dedupFirst (pySplit str1)).filter
            (fun w => w ∈ dedupFirst (pySplit str2))).length
              ≤ (dedupFirst (pySplit str1) ++ (dedupFirst (pySplit str2)).filter
                (fun w => w ∉ dedupFirst (pySplit str1))).length := by
          rw [List.length_append]
          exact le_trans (List.length_filter_le _ _) (Nat.le_add_right _ _)
        exact_mod_cast hle
      · have hlt : 0 < (dedupFirst (pySplit str1) ++ (dedupFirst (pySplit str2)).filter
            (fun w => w ∉ dedupFirst (pySplit str1))).length := by
          rw [List.length_append]
          omega
        exact_mod_cast hlt

theorem amount_confidence_nonneg (ledger_tx : Transaction) (bank_tx : BankTransaction) :
    0 ≤ amount_confidence ledger_tx bank_tx ∧ amount_confidence ledger_tx bank_tx ≤ 4/10 := by
  unfold amount_confidence
  cases ledger_tx.amount <;> cases bank_tx.amount <;> dsimp only <;> (try split_ifs) <;> norm_num

theorem date_confidence_nonneg (ledger_tx : Transaction) (bank_tx : BankTransaction) :
    0 ≤ date_confidence ledger_tx bank_tx ∧ date_confidence ledger_tx bank_tx ≤ 3/10 := by
  unfold date_confidence
  cases ledger_tx.transaction_date <;> cases bank_tx.date <;> dsimp only <;>
    (try split_ifs) <;> norm_num

theorem desc_confidence_nonneg (ledger_tx : Transaction) (bank_tx : BankTransaction) :
    0 ≤ desc_confidence ledger_tx bank_tx ∧ desc_confidence ledger_tx bank_tx ≤ 2/10 := by
  unfold desc_confidence
  cases ledger_tx.description with
  | none => norm_num
  | some s1 =>
    cases bank_tx.description with
    | none => norm_num
    | some s2 =>
      dsimp only
      split_ifs with h
      · obtain ⟨hs0, hs1⟩ := similarity_nonneg_le_one (strLower s1) (strLower s2)
        constructor
        · exact mul_nonneg hs0 (by norm_num)
        · calc calculate_string_similarity (strLower s1) (strLower s2) * (2/10)
              ≤ 1 * (2/10) := mul_le_mul_of_nonneg_right hs1 (by norm_num)
            _ = 2/10 := by norm_num
      · norm_num

theorem category_confidence_nonneg (ledger_tx : Transaction) (bank_tx : BankTransaction) :
    0 ≤ category_confidence ledger_tx bank_tx ∧ category_confidence ledger_tx bank_tx ≤ 1/10 := by
  unfold category_confidence
  cases ledger_tx.category <;> cases bank_tx.category <;> dsimp only <;>
    (try split_ifs) <;> norm_num

theorem confidence_nonneg_le_one (ledger_tx : Transaction) (bank_tx : BankTransaction) :
    0 ≤ calculate_match_confidence ledger_tx bank_tx ∧
      calculate_match_confidence ledger_tx bank_tx ≤ 1 := by
  unfold calculate_match_confidence
  obtain ⟨ha, _⟩ := amount_confidence_nonneg ledger_tx bank_tx
  obtain ⟨hd, _⟩ := date_confidence_nonneg ledger_tx bank_tx
  obtain ⟨hs, _⟩ := desc_confidence_nonneg ledger_tx bank_tx
  obtain ⟨hc, _⟩ := category_confidence_nonneg ledger_tx bank_tx
  constructor
  · exact le_min (by linarith) zero_le_one
  · exact min_le_right _ _

theorem ai_verify_nonneg_le_one (oracle : Transaction → BankTransaction → Option ℚ)
    (ledger_tx : Transaction) (bank_tx : BankTransaction) :
    0 ≤ ai_verify_match oracle ledger_tx bank_tx ∧ ai_verify_match oracle ledger_tx bank_tx ≤ 1 := by
  unfold ai_verify_match
  cases oracle ledger_tx bank_tx with
  | none => norm_num
  | some confidence =>
    constructor
    · exact le_max_left _ _
    · exact max_le (by norm_num) (min_le_left _ _)

theorem ai_confidence_nonneg_le_one (oracle : Transaction → BankTransaction → Option ℚ)
    (ledger_tx : Transaction) (bank_tx : BankTransaction) :
    0 ≤ ai_calculate_match_confidence oracle ledger_tx bank_tx ∧
      ai_calculate_match_confidence oracle ledger_tx bank_tx ≤ 1 := by
  unfold ai_calculate_match_confidence
  dsimp only
  obtain ⟨hb0, hb1⟩ := confidence_nonneg_le_one ledger_tx bank_tx
  obtain ⟨ha0, ha1⟩ := ai_verify_nonneg_le_one oracle ledger_tx bank_tx
  split_ifs with h
  · constructor
    · have h6 := mul_nonneg hb0 (show (0:ℚ) ≤ 6/10 by norm_num)
      have h4 := mul_nonneg ha0 (show (0:ℚ) ≤ 4/10 by norm_num)
      linarith
    · nlinarith
  · exact ⟨hb0, hb1⟩

theorem match_engine_confidence_bounds (score : Transaction → BankTransaction → ℚ)
    (threshold : ℚ) (hs : ∀ lt bt, 0 ≤ score lt bt ∧ score lt bt ≤ 1)
    (ledger : List Transaction) :
    ∀ (banks : List BankTransaction) (used : List Nat) (m : TransactionMatch),
      (m ∈ (match_engine score threshold ledger banks used).1 ∨
        m ∈ (match_engine score threshold ledger banks used).2.1) →
      0 ≤ m.confidence ∧ m.confidence ≤ 1 := by
  induction ledger with
  | nil =>
    intro banks used m hm
    simp [match_engine] at hm
  | cons lt rest ih =>
    intro banks used m hm
    rcases hsb : select_best (score lt) threshold used banks none 0 with ⟨ob, c⟩
    cases ob with
    | some bt =>
      have hA := select_best_none (score lt) threshold used banks bt c hsb
      simp only [match_engine, hsb] at hm
      rcases hm with hm | hm
      · rcases List.mem_cons.mp hm with rfl | hm'
        · simpa using hA.2.2.1 ▸ hs lt bt
        · exact ih banks (bt.id :: used) m (Or.inl hm')
      · exact ih banks (bt.id :: used) m (Or.inr hm)
    | none =>
      simp only [match_engine, hsb] at hm
      rcases hm with hm | hm
      · exact ih banks used m (Or.inl hm)
      · rcases List.mem_cons.mp hm with rfl | hm'
        · norm_num
        · exact ih banks used m (Or.inr hm')

/-- C4: every confidence score attached to a TransactionMatch produced by
either matcher variant lies in the closed unit interval: matched entries
carry the heuristic score capped at 1 or the enhanced blend of 0.6 times the
baseline score and 0.4 times the clamped external verification (0.5 when
that call fails, which the oracle parameter models by none), and ledger_only
and bank_only entries carry 0. -/
theorem confidence_scores_in_unit_interval
    (oracle : Transaction → BankTransaction → Option ℚ)
    (ledger_transactions : List Transaction) (bank_transactions : List BankTransaction)
    (m : TransactionMatch)
    (hm : m ∈ (match_transactions ledger_transactions bank_transactions).1
        ∨ m ∈ (match_transactions ledger_transactions bank_transactions).2.1
        ∨ m ∈ (match_transactions ledger_transactions bank_transactions).2.2
        ∨ m ∈ (ai_enhanced_match_transactions oracle ledger_transactions bank_transactions).1
        ∨ m ∈ (ai_enhanced_match_transactions oracle ledger_transactions bank_transactions).2.1
        ∨ m ∈ (ai_enhanced_match_transactions oracle ledger_transactions bank_transactions).2.2) :
    0 ≤ m.confidence ∧ m.confidence ≤ 1 := by
  rcases hm with hm | hm | hm | hm | hm | hm
  · exact match_engine_confidence_bounds _ _ confidence_nonneg_le_one _ _ _ m
      (Or.inl (by simpa [match_transactions] using hm))
  · exact match_engine_confidence_bounds _ _ confidence_nonneg_le_one _ _ _ m
      (Or.inr (by simpa [match_transactions] using hm))
  · simp only [match_transactions, List.mem_map] at hm
    obtain ⟨bt, _, rfl⟩ := hm
    norm_num
  · exact match_engine_confidence_bounds _ _ (ai_confidence_nonneg_le_one oracle) _ _ _ m
      (Or.inl (by simpa [ai_enhanced_match_transactions] using hm))
  · exact match_engine_confidence_bounds _ _ (ai_confidence_nonneg_le_one oracle) _ _ _ m
      (Or.inr (by simpa [ai_enhanced_match_transactions] using hm))
  · simp only [ai_enhanced_match_transactions, List.mem_map] at hm
    obtain ⟨bt, _, rfl⟩ := hm
    norm_num

/-- C4 witness: the bank_only entry produced for one unmatched bank record. -/
theorem confidence_scores_in_unit_interval_witness :
    0 ≤ (⟨none, some ⟨5, 1, none, none, none, none, none, none, none, none, none,
        false, none, none, none⟩, "bank_only", 0⟩ : TransactionMatch).confidence ∧
    (⟨none, some ⟨5, 1, none, none, none, none, none, none, none, none, none,
        false, none, none, none⟩, "bank_only", 0⟩ : TransactionMatch).confidence ≤ 1 :=
  confidence_scores_in_unit_interval (fun _ _ => none) []
    [⟨5, 1, none, none, none, none, none, none, none, none, none, false, none, none, none⟩]
    _ (Or.inr (Or.inr (Or.inl (by decide))))

theorem dedupFirst_ne_nil {α : Type} [DecidableEq α] (l : List α) (h : l ≠ []) :
    dedupFirst l ≠ [] := by
  cases l with
  | nil => exact absurd rfl h
  | cons x xs => simp [dedupFirst, dedupLoop]

theorem similarity_self (t : String) (hw : pySplit t ≠ []) (ht : t ≠ "") :
    calculate_string_similarity t t = 1 := by
  unfold calculate_string_similarity
  dsimp only
  rw [if_neg (by simp [ht]), if_neg (by simp [dedupFirst_ne_nil _ hw])]
  have hfilter : (dedupFirst (pySplit t)).filter (fun w => w ∈ dedupFirst (pySplit t))
      = dedupFirst (pySplit t) :=
    List.filter_eq_self.mpr (fun a ha => by simpa using ha)
  have hnilf : (dedupFirst (pySplit t)).filter (fun w => w ∉ dedupFirst (pySplit t)) = [] :=
    List.filter_eq_nil_iff.mpr (fun a ha => by simp [ha])
  rw [hfilter, hnilf, List.append_nil, div_self]
  have hpos := List.length_pos.mpr (dedupFirst_ne_nil _ hw)
  exact ne_of_gt (by exact_mod_cast hpos)

theorem category_confidence_cases (ledger_tx : Transaction) (bank_tx : BankTransaction) :
    category_confidence ledger_tx bank_tx = 0 ∨ category_confidence ledger_tx bank_tx = 1/10 := by
  unfold category_confidence
  cases ledger_tx.category <;> cases bank_tx.category <;> dsimp only <;> (try split_ifs) <;> simp

/-- C3: a ledger/bank pair with amounts within 0.01, the same date and the
same description (present on both sides and containing at least one word)
scores at least 0.7, and the baseline matcher on that pair alone classifies
it as matched: the score is 0.9, or 1 when the categories also agree, so it
clears the strict 0.7 threshold. -/
theorem exact_pair_matched (ledger_tx : Transaction) (bank_tx : BankTransaction)
    (a1 a2 : ℚ) (d : Int) (s : String)
    (ha1 : ledger_tx.amount = some a1) (ha2 : bank_tx.amount = some a2)
    (hclose : |a1 - a2| < 1/100)
    (hd1 : ledger_tx.transaction_date = some d) (hd2 : bank_tx.date = some d)
    (hs1 : ledger_tx.description = some s) (hs2 : bank_tx.description = some s)
    (hwords : pySplit (strLower s) ≠ []) :
    7/10 ≤ calculate_match_confidence ledger_tx bank_tx ∧
    match_transactions [ledger_tx] [bank_tx]
      = ([⟨some ledger_tx, some bank_tx, "matched",
          calculate_match_confidence ledger_tx bank_tx⟩], [], []) := by
  have hlne : strLower s ≠ "" := by
    intro he
    apply hwords
    rw [he]
    rfl
  have hsne : s ≠ "" := by
    intro he
    apply hlne
    rw [he]
    rfl
  have hamount : amount_confidence ledger_tx bank_tx = 4/10 := by
    unfold amount_confidence
    rw [ha1, ha2]
    dsimp only
    rw [if_pos hclose]
  have hdate : date_confidence ledger_tx bank_tx = 3/10 := by
    unfold date_confidence
    rw [hd1, hd2]
    simp
  have hdesc : desc_confidence ledger_tx bank_tx = 2/10 := by
    unfold desc_confidence
    rw [hs1, hs2]
    dsimp only
    rw [if_pos ⟨hsne, hsne⟩, similarity_self _ hwords hlne, one_mul]
  have hconf : calculate_match_confidence ledger_tx bank_tx = 9/10 ∨
      calculate_match_confidence ledger_tx bank_tx = 1 := by
    unfold calculate_match_confidence
    rw [hamount, hdate, hdesc]
    rcases category_confidence_cases ledger_tx bank_tx with h | h <;> rw [h]
    · left
      rw [min_eq_left (by norm_num)]
      norm_num
    · right
      rw [min_eq_left (by norm_num)]
      norm_num
  have hgt : 7/10 < calculate_match_confidence ledger_tx bank_tx := by
    rcases hconf with h | h <;> rw [h] <;> norm_num
  have h0 : (0:ℚ) < calculate_match_confidence ledger_tx bank_tx :=
    lt_trans (by norm_num) hgt
  have hsel : select_best (calculate_match_confidence ledger_tx) (7/10) [] [bank_tx] none 0
      = (some bank_tx, calculate_match_confidence ledger_tx bank_tx) := by
    rw [select_best, if_neg (List.not_mem_nil _), if_pos ⟨h0, hgt⟩, select_best]
  refine ⟨le_of_lt hgt, ?_⟩
  simp only [match_transactions, match_engine, hsel]
  simp [List.filter_cons]

/-- C3 witness at an exact amount, date and description pair. -/
theorem exact_pair_matched_witness :
    7/10 ≤ calculate_match_confidence
      ⟨10, 1, none, some (4567/100), some 7, none, some "SAFEWAY"⟩
      ⟨5, 1, none, some 7, some "SAFEWAY", some (4567/100), none, none, none, none, none,
        false, none, none, none⟩ ∧
    match_transactions
        [⟨10, 1, none, some (4567/100), some 7, none, some "SAFEWAY"⟩]
        [⟨5, 1, none, some 7, some "SAFEWAY", some (4567/100), none, none, none, none, none,
          false, none, none, none⟩]
      = ([⟨some ⟨10, 1, none, some (4567/100), some 7, none, some "SAFEWAY"⟩,
            some ⟨5, 1, none, some 7, some "SAFEWAY", some (4567/100), none, none, none, none,
              none, false, none, none, none⟩, "matched",
            calculate_match_confidence
              ⟨10, 1, none, some (4567/100), some 7, none, some "SAFEWAY"⟩
              ⟨5, 1, none, some 7, some "SAFEWAY", some (4567/100), none, none, none, none,
                none, false, none, none, none⟩⟩], [], []) :=
  exact_pair_matched _ _ (4567/100) (4567/100) 7 "SAFEWAY" rfl rfl (by norm_num) rfl rfl rfl rfl
    (by decide)

/-! Concrete stored rows used by the duplicate-pass claims.  Fields the pass
never reads are left null. -/

/-- A stored bank row with the given id, day, description and amount. -/
def bankRow (id : Nat) (date : Option Int) (description : Option String) (amount : Option ℚ) :
    BankTransaction :=
  ⟨id, 1, none, date, description, amount, none, none, none, none, none, false, none, none, none⟩

/-- C5: the duplicate pass is not idempotent.  Four rows forming two
confirmed exact-duplicate groups (two FOO rows and two BAR rows, same amount
and day): the first run merges each group, but the merge loses the (unique)
description of each group, so both merged rows carry a null description,
land in the same grouping key on the second run, count as exact duplicates
(None equals None on every compared field), and are merged again: the second
run deletes one more row instead of none. -/
theorem dedup_second_run_deletes :
    (detect_and_merge_duplicates (fun _ => none)
      [bankRow 1 (some 0) (some "FOO") (some 5), bankRow 2 (some 0) (some "FOO") (some 5),
       bankRow 3 (some 0) (some "BAR") (some 5), bankRow 4 (some 0) (some "BAR") (some 5)]).2
      = 2 ∧
    (detect_and_merge_duplicates (fun _ => none)
      (detect_and_merge_duplicates (fun _ => none)
        [bankRow 1 (some 0) (some "FOO") (some 5), bankRow 2 (some 0) (some "FOO") (some 5),
         bankRow 3 (some 0) (some "BAR") (some 5), bankRow 4 (some 0) (some "BAR") (some 5)]).1).2
      = 1 := by
  decide

/-- C6: the merge drops the description instead of taking it from the first
member.  A confirmed group of two rows both described "SAFEWAY" merges into
a row whose description is null, because the merged_data dictionary of the
source never copies the description of the base member and only sets one
when the members carry more than one distinct non-empty description. -/
theorem merge_drops_single_description :
    (merge_duplicate_transactions
        [bankRow 1 (some 0) (some "SAFEWAY") (some 5),
         bankRow 2 (some 0) (some "SAFEWAY") (some 5)]).map
        (fun m => m.description) = some none ∧
    (merge_duplicate_transactions
        [bankRow 1 (some 0) (some "SAFEWAY") (some 5),
         bankRow 2 (some 0) (some "SAFEWAY") (some 5)]).map
        (fun m => (m.amount, m.date)) = some (some 5, some 0) := by
  decide

/-- C7 counterexample: the two SAFEWAY rows with identical amount and date
but reference-tagged descriptions are NOT placed in one candidate group: the
grouping cleaner strips no hash references, their cleaned descriptions
differ, and the candidate list of the grouper is empty. -/
theorem safeway_rows_not_grouped :
    duplicate_group_keys
        [bankRow 1 (some 0) (some "SAFEWAY #123") (some (4567/100)),
         bankRow 2 (some 0) (some "SAFEWAY #456") (some (4567/100))] = [] := by
  decide

/-- C7 as amended: the two rows receive different grouping keys, are never
candidates, and the duplicate pass leaves them untouched with zero
deletions; their word-overlap similarity is 1/3, below the 0.8 threshold, so
even the deterministic fallback would not confirm them as duplicates. -/
theorem safeway_rows_not_merged :
    group_key (bankRow 1 (some 0) (some "SAFEWAY #123") (some (4567/100)))
        ≠ group_key (bankRow 2 (some 0) (some "SAFEWAY #456") (some (4567/100))) ∧
    detect_and_merge_duplicates (fun _ => none)
        [bankRow 1 (some 0) (some "SAFEWAY #123") (some (4567/100)),
         bankRow 2 (some 0) (some "SAFEWAY #456") (some (4567/100))]
      = ([bankRow 1 (some 0) (some "SAFEWAY #123") (some (4567/100)),
          bankRow 2 (some 0) (some "SAFEWAY #456") (some (4567/100))], 0) ∧
    (fallback_duplicate_analysis
        [bankRow 1 (some 0) (some "SAFEWAY #123") (some (4567/100)),
         bankRow 2 (some 0) (some "SAFEWAY #456") (some (4567/100))]).are_duplicates = false ∧
    calculate_string_similarity "SAFEWAY #123" "SAFEWAY #456" = 1/3 := by
  decide

/-- C8: the amount parser does not collapse multiple decimal points.  The
collapse step of the source rejoins the dot-separated parts with dots,
leaving the string unchanged, and the decimal constructor then rejects it:
"1.234.56" is unparseable (none) rather than 1234.56, while the single-dot
"1234.56" parses. -/
theorem multi_dot_amount_unparseable :
    parse_amount_improved "1.234.56" = none ∧
    parse_amount_improved "1234.56" = some (30864/25) := by
  decide

/-- C9 counterexample: a 0-byte upload does not report one failure.  With
the AI parse unavailable (it returns the empty list for every failure) the
traditional parser swallows the delimiter-sniffing error on the empty text
and returns no rows, so the ingestion call reports zero total, zero
succeeded, zero failed and no error message. -/
theorem empty_upload_reports_no_failure :
    (process_csv_upload (fun _ => []) (fun _ => none) "batch-1" "").failed_imports = 0 ∧
    (process_csv_upload (fun _ => []) (fun _ => none) "batch-1" "").errors = [] := by
  decide

/-- C9 as amended: a 0-byte upload returns the structured response with a
batch identifier and all counts zero, with no error messages and without
raising, whatever the date parser does. -/
theorem empty_upload_structured_response (parse_date : String → Option Int) :
    process_csv_upload (fun _ => []) parse_date "batch-1" ""
      = ⟨"batch-1", 0, 0, 0, []⟩ := by
  rfl

end Recept


